import Mathlib

/-!
Verification of the pygame-sprite-perf repository: shallow embedding of the
image-geometry functions, the asynchronous task pool, the task execution
loop, and the dirty-sprite cache model, with theorems checking the
specification's claims against the embedded code.

Python `float` division is modelled by exact rational (`ℚ`) division, and
Python `int()` truncation by `pytrunc`.
-/

namespace Cam

/-- Python `int()` applied to a rational number: truncation toward zero. -/
def pytrunc (q : ℚ) : ℤ := if 0 ≤ q then ⌊q⌋ else -(⌊-q⌋)

/-- The `resize_type` parameter of `new_size_keep_aspect_ratio`
(source strings `'inner'` and `'outer'`). -/
inductive ResizeType where
  | inner
  | outer
deriving DecidableEq, Repr

/-- Embedding of `new_size_keep_aspect_ratio(original_size, target_size,
resize_type)` from `src/cam/use_update_on_event.py` (the copy in
`use_update_dirty_on_event.py` is textually identical). -/
def new_size_keep_aspect_ratio (original_size target_size : ℤ × ℤ)
    (resize_type : ResizeType) : ℤ × ℤ :=
  let img_ratio : ℚ := (original_size.1 : ℚ) / (original_size.2 : ℚ)
  let ratio : ℚ := (target_size.1 : ℚ) / (target_size.2 : ℚ)
  let ox : ℚ := (original_size.1 : ℚ)
  let oy : ℚ := (original_size.2 : ℚ)
  let tx0 : ℚ := (target_size.1 : ℚ)
  let ty0 : ℚ := (target_size.2 : ℚ)
  if img_ratio < ratio then
    -- fit to width
    let ty : ℚ := (tx0 / ox) * oy
    if ty0 < ty ∧ resize_type = ResizeType.inner then
      (pytrunc ((ty0 / oy) * ox), pytrunc ty0)
    else
      (pytrunc tx0, pytrunc ty)
  else if ratio < img_ratio then
    -- fit to height
    let tx : ℚ := (ty0 / oy) * ox
    if tx0 < tx ∧ resize_type = ResizeType.inner then
      (pytrunc tx0, pytrunc ((tx0 / ox) * oy))
    else
      (pytrunc tx, pytrunc ty0)
  else
    (pytrunc tx0, pytrunc ty0)

lemma pytrunc_of_nonneg {q : ℚ} (h : 0 ≤ q) : pytrunc q = ⌊q⌋ := if_pos h

@[simp]
lemma pytrunc_intCast (n : ℤ) : pytrunc (n : ℚ) = n := by
  unfold pytrunc
  split_ifs with h
  · exact Int.floor_intCast n
  · rw [← Int.cast_neg, Int.floor_intCast]
    omega

/-- Closed form of the inner-mode fit for strictly positive inputs:
the branch taken only depends on the sign of `ow * th - tw * oh`, and in the
strict branches the inner fallback always fires. -/
lemma new_size_inner_eq (ow oh tw th : ℤ)
    (how : 0 < ow) (hoh : 0 < oh) (htw : 0 < tw) (hth : 0 < th) :
    new_size_keep_aspect_ratio (ow, oh) (tw, th) ResizeType.inner =
      if ow * th < tw * oh then (⌊(th : ℚ) / (oh : ℚ) * (ow : ℚ)⌋, th)
      else if tw * oh < ow * th then (tw, ⌊(tw : ℚ) / (ow : ℚ) * (oh : ℚ)⌋)
      else (tw, th) := by
  have hA : (0:ℚ) < (ow : ℚ) := by exact_mod_cast how
  have hB : (0:ℚ) < (oh : ℚ) := by exact_mod_cast hoh
  have hC : (0:ℚ) < (tw : ℚ) := by exact_mod_cast htw
  have hD : (0:ℚ) < (th : ℚ) := by exact_mod_cast hth
  simp only [new_size_keep_aspect_ratio]
  by_cases h1 : (ow : ℚ) * (th : ℚ) < (tw : ℚ) * (oh : ℚ)
  · have h1q : (ow : ℚ) / (oh : ℚ) < (tw : ℚ) / (th : ℚ) :=
      (div_lt_div_iff₀ hB hD).mpr h1
    have h1z : ow * th < tw * oh := by exact_mod_cast h1
    have hcond : (th : ℚ) < (tw : ℚ) / (ow : ℚ) * (oh : ℚ) := by
      rw [div_mul_eq_mul_div, lt_div_iff₀ hA]
      linarith [h1]
    have hp : (0:ℚ) ≤ (th : ℚ) / (oh : ℚ) * (ow : ℚ) := by positivity
    rw [if_pos h1q, if_pos ⟨hcond, trivial⟩, if_pos h1z, pytrunc_of_nonneg hp,
      pytrunc_intCast]
  · have h1z : ¬ (ow * th < tw * oh) := by exact_mod_cast h1
    have h1q : ¬ ((ow : ℚ) / (oh : ℚ) < (tw : ℚ) / (th : ℚ)) := fun hq =>
      h1 ((div_lt_div_iff₀ hB hD).mp hq)
    rw [if_neg h1q, if_neg h1z]
    by_cases h2 : (tw : ℚ) * (oh : ℚ) < (ow : ℚ) * (th : ℚ)
    · have h2q : (tw : ℚ) / (th : ℚ) < (ow : ℚ) / (oh : ℚ) :=
        (div_lt_div_iff₀ hD hB).mpr (by linarith)
      have h2z : tw * oh < ow * th := by exact_mod_cast h2
      have hcond : (tw : ℚ) < (th : ℚ) / (oh : ℚ) * (ow : ℚ) := by
        rw [div_mul_eq_mul_div, lt_div_iff₀ hB]
        linarith [h2]
      have hp : (0:ℚ) ≤ (tw : ℚ) / (ow : ℚ) * (oh : ℚ) := by positivity
      rw [if_pos h2q, if_pos ⟨hcond, trivial⟩, if_pos h2z, pytrunc_intCast,
        pytrunc_of_nonneg hp]
    · have h2z : ¬ (tw * oh < ow * th) := by exact_mod_cast h2
      have h2q : ¬ ((tw : ℚ) / (th : ℚ) < (ow : ℚ) / (oh : ℚ)) := fun hq => by
        have := (div_lt_div_iff₀ hD hB).mp hq
        exact h2 (by linarith)
      rw [if_neg h2q, if_neg h2z, pytrunc_intCast, pytrunc_intCast]

/-- Closed form of the outer-mode fit for strictly positive inputs. -/
lemma new_size_outer_eq (ow oh tw th : ℤ)
    (how : 0 < ow) (hoh : 0 < oh) (htw : 0 < tw) (hth : 0 < th) :
    new_size_keep_aspect_ratio (ow, oh) (tw, th) ResizeType.outer =
      if ow * th < tw * oh then (tw, ⌊(tw : ℚ) / (ow : ℚ) * (oh : ℚ)⌋)
      else if tw * oh < ow * th then (⌊(th : ℚ) / (oh : ℚ) * (ow : ℚ)⌋, th)
      else (tw, th) := by
  have hA : (0:ℚ) < (ow : ℚ) := by exact_mod_cast how
  have hB : (0:ℚ) < (oh : ℚ) := by exact_mod_cast hoh
  have hC : (0:ℚ) < (tw : ℚ) := by exact_mod_cast htw
  have hD : (0:ℚ) < (th : ℚ) := by exact_mod_cast hth
  simp only [new_size_keep_aspect_ratio]
  by_cases h1 : (ow : ℚ) * (th : ℚ) < (tw : ℚ) * (oh : ℚ)
  · have h1q : (ow : ℚ) / (oh : ℚ) < (tw : ℚ) / (th : ℚ) :=
      (div_lt_div_iff₀ hB hD).mpr h1
    have h1z : ow * th < tw * oh := by exact_mod_cast h1
    have hcond : ¬ ((th : ℚ) < (tw : ℚ) / (ow : ℚ) * (oh : ℚ) ∧
        ResizeType.outer = ResizeType.inner) := by
      rintro ⟨-, h⟩
      cases h
    have hp : (0:ℚ) ≤ (tw : ℚ) / (ow : ℚ) * (oh : ℚ) := by positivity
    rw [if_pos h1q, if_neg hcond, if_pos h1z, pytrunc_intCast,
      pytrunc_of_nonneg hp]
  · have h1z : ¬ (ow * th < tw * oh) := by exact_mod_cast h1
    have h1q : ¬ ((ow : ℚ) / (oh : ℚ) < (tw : ℚ) / (th : ℚ)) := fun hq =>
      h1 ((div_lt_div_iff₀ hB hD).mp hq)
    rw [if_neg h1q, if_neg h1z]
    by_cases h2 : (tw : ℚ) * (oh : ℚ) < (ow : ℚ) * (th : ℚ)
    · have h2q : (tw : ℚ) / (th : ℚ) < (ow : ℚ) / (oh : ℚ) :=
        (div_lt_div_iff₀ hD hB).mpr (by linarith)
      have h2z : tw * oh < ow * th := by exact_mod_cast h2
      have hcond : ¬ ((tw : ℚ) < (th : ℚ) / (oh : ℚ) * (ow : ℚ) ∧
          ResizeType.outer = ResizeType.inner) := by
        rintro ⟨-, h⟩
        cases h
      have hp : (0:ℚ) ≤ (th : ℚ) / (oh : ℚ) * (ow : ℚ) := by positivity
      rw [if_pos h2q, if_neg hcond, if_pos h2z, pytrunc_of_nonneg hp,
        pytrunc_intCast]
    · have h2z : ¬ (tw * oh < ow * th) := by exact_mod_cast h2
      have h2q : ¬ ((tw : ℚ) / (th : ℚ) < (ow : ℚ) / (oh : ℚ)) := fun hq => by
        have := (div_lt_div_iff₀ hD hB).mp hq
        exact h2 (by linarith)
      rw [if_neg h2q, if_neg h2z, pytrunc_intCast, pytrunc_intCast]

/-- Python integer floor division `//`. -/
def pyfloordiv (a b : ℤ) : ℤ := Int.fdiv a b

/-- The `crop_type` parameter of `new_size_by_croping_ratio`: the nine
anchor strings `'top-left'`, ..., `'bottom-right'`. -/
inductive CropAnchor where
  | top_left
  | top_center
  | top_right
  | center_left
  | center
  | center_right
  | bottom_left
  | bottom_center
  | bottom_right
deriving DecidableEq, Repr

/-- The `crop_type.endswith('left'/'center'/'right')` cascade choosing the
x coordinate of the crop rectangle. -/
def crop_anchor_x (crop_type : CropAnchor) (ow tx : ℤ) : ℤ :=
  match crop_type with
  | .top_left | .center_left | .bottom_left => 0
  | .top_center | .center | .bottom_center => pyfloordiv (ow - tx) 2
  | .top_right | .center_right | .bottom_right => ow - tx

/-- The `crop_type.startswith('top'/'center'/'bottom')` cascade choosing the
y coordinate of the crop rectangle. -/
def crop_anchor_y (crop_type : CropAnchor) (oh ty : ℤ) : ℤ :=
  match crop_type with
  | .top_left | .top_center | .top_right => 0
  | .center_left | .center | .center_right => pyfloordiv (oh - ty) 2
  | .bottom_left | .bottom_center | .bottom_right => oh - ty

/-- Embedding of `new_size_by_croping_ratio(original_size, target_size,
crop_type)` from `src/cam/use_update_on_event.py` (the copy in
`use_update_dirty_on_event.py` is textually identical). -/
def new_size_by_croping_ratio (original_size target_size : ℤ × ℤ)
    (crop_type : CropAnchor) : ℤ × ℤ × ℤ × ℤ :=
  let img_ratio : ℚ := (original_size.1 : ℚ) / (original_size.2 : ℚ)
  let ratio : ℚ := (target_size.1 : ℚ) / (target_size.2 : ℚ)
  let tx : ℤ :=
    if img_ratio < ratio then original_size.1
    else if ratio < img_ratio then pytrunc (ratio * (original_size.2 : ℚ))
    else original_size.1
  let ty : ℤ :=
    if img_ratio < ratio then pytrunc ((original_size.1 : ℚ) / ratio)
    else original_size.2
  let x := crop_anchor_x crop_type original_size.1 tx
  let y := crop_anchor_y crop_type original_size.2 ty
  (x, y, tx + x, ty + y)

/-- The claimed bounds on the crop rectangle, exactly as the spec states
them: `0 ≤ x1 < x2 ≤ source_w` and `0 ≤ y1 < y2 ≤ source_h`. -/
def crop_claim_ok (original_size target_size : ℤ × ℤ) (crop_type : CropAnchor) : Prop :=
  let r := new_size_by_croping_ratio original_size target_size crop_type
  0 ≤ r.1 ∧ r.1 < r.2.2.1 ∧ r.2.2.1 ≤ original_size.1 ∧
  0 ≤ r.2.1 ∧ r.2.1 < r.2.2.2 ∧ r.2.2.2 ≤ original_size.2

instance (o t : ℤ × ℤ) (a : CropAnchor) : Decidable (crop_claim_ok o t a) := by
  unfold crop_claim_ok
  infer_instance

/-- The width (`tx`) of the crop rectangle, written with integer conditions. -/
def crop_tx_int (ow oh tw th : ℤ) : ℤ :=
  if tw * oh < ow * th then ⌊(tw : ℚ) * (oh : ℚ) / (th : ℚ)⌋ else ow

/-- The height (`ty`) of the crop rectangle, written with integer conditions. -/
def crop_ty_int (ow oh tw th : ℤ) : ℤ :=
  if ow * th < tw * oh then ⌊(ow : ℚ) * (th : ℚ) / (tw : ℚ)⌋ else oh

/-- Closed form of the crop rectangle for strictly positive inputs. -/
lemma new_size_by_croping_eq (ow oh tw th : ℤ) (crop_type : CropAnchor)
    (how : 0 < ow) (hoh : 0 < oh) (htw : 0 < tw) (hth : 0 < th) :
    new_size_by_croping_ratio (ow, oh) (tw, th) crop_type =
      (crop_anchor_x crop_type ow (crop_tx_int ow oh tw th),
       crop_anchor_y crop_type oh (crop_ty_int ow oh tw th),
       crop_tx_int ow oh tw th + crop_anchor_x crop_type ow (crop_tx_int ow oh tw th),
       crop_ty_int ow oh tw th + crop_anchor_y crop_type oh (crop_ty_int ow oh tw th)) := by
  have hA : (0:ℚ) < (ow : ℚ) := by exact_mod_cast how
  have hB : (0:ℚ) < (oh : ℚ) := by exact_mod_cast hoh
  have hC : (0:ℚ) < (tw : ℚ) := by exact_mod_cast htw
  have hD : (0:ℚ) < (th : ℚ) := by exact_mod_cast hth
  have htx : (if (ow : ℚ) / (oh : ℚ) < (tw : ℚ) / (th : ℚ) then ow
      else if (tw : ℚ) / (th : ℚ) < (ow : ℚ) / (oh : ℚ) then
        pytrunc ((tw : ℚ) / (th : ℚ) * (oh : ℚ)) else ow) = crop_tx_int ow oh tw th := by
    unfold crop_tx_int
    by_cases h2 : tw * oh < ow * th
    · have h2q : (tw : ℚ) / (th : ℚ) < (ow : ℚ) / (oh : ℚ) := by
        rw [div_lt_div_iff₀ hD hB]
        exact_mod_cast h2
      have h1q : ¬ ((ow : ℚ) / (oh : ℚ) < (tw : ℚ) / (th : ℚ)) := not_lt.mpr (le_of_lt h2q)
      rw [if_neg h1q, if_pos h2q, if_pos h2, div_mul_eq_mul_div,
        pytrunc_of_nonneg (by positivity)]
    · rw [if_neg h2]
      by_cases h1 : (ow : ℚ) / (oh : ℚ) < (tw : ℚ) / (th : ℚ)
      · rw [if_pos h1]
      · have h2q : ¬ ((tw : ℚ) / (th : ℚ) < (ow : ℚ) / (oh : ℚ)) := fun hq =>
          h2 (by exact_mod_cast (div_lt_div_iff₀ hD hB).mp hq)
        rw [if_neg h1, if_neg h2q]
  have hty : (if (ow : ℚ) / (oh : ℚ) < (tw : ℚ) / (th : ℚ) then
      pytrunc ((ow : ℚ) / ((tw : ℚ) / (th : ℚ))) else oh) = crop_ty_int ow oh tw th := by
    unfold crop_ty_int
    by_cases h1 : ow * th < tw * oh
    · have h1q : (ow : ℚ) / (oh : ℚ) < (tw : ℚ) / (th : ℚ) := by
        rw [div_lt_div_iff₀ hB hD]
        exact_mod_cast h1
      rw [if_pos h1q, if_pos h1, div_div_eq_mul_div,
        pytrunc_of_nonneg (by positivity)]
    · have h1q : ¬ ((ow : ℚ) / (oh : ℚ) < (tw : ℚ) / (th : ℚ)) := fun hq =>
        h1 (by exact_mod_cast (div_lt_div_iff₀ hB hD).mp hq)
      rw [if_neg h1q, if_neg h1]
  simp only [new_size_by_croping_ratio]
  rw [htx, hty]

lemma pyfloordiv_two_nonneg {a : ℤ} (h : 0 ≤ a) : 0 ≤ pyfloordiv a 2 := by
  unfold pyfloordiv
  rw [Int.fdiv_eq_ediv _ (by norm_num)]
  exact Int.ediv_nonneg h (by norm_num)

lemma pyfloordiv_two_le {a : ℤ} (h : 0 ≤ a) : pyfloordiv a 2 ≤ a := by
  unfold pyfloordiv
  rw [Int.fdiv_eq_ediv _ (by norm_num)]
  exact Int.ediv_le_self 2 h

lemma crop_anchor_x_bounds (crop_type : CropAnchor) {n t : ℤ} (h0 : 0 ≤ t) (h1 : t ≤ n) :
    0 ≤ crop_anchor_x crop_type n t ∧ t + crop_anchor_x crop_type n t ≤ n := by
  have hd0 : 0 ≤ pyfloordiv (n - t) 2 := pyfloordiv_two_nonneg (by omega)
  have hd1 : pyfloordiv (n - t) 2 ≤ n - t := pyfloordiv_two_le (by omega)
  cases crop_type <;> simp only [crop_anchor_x] <;> omega

lemma crop_anchor_y_bounds (crop_type : CropAnchor) {n t : ℤ} (h0 : 0 ≤ t) (h1 : t ≤ n) :
    0 ≤ crop_anchor_y crop_type n t ∧ t + crop_anchor_y crop_type n t ≤ n := by
  have hd0 : 0 ≤ pyfloordiv (n - t) 2 := pyfloordiv_two_nonneg (by omega)
  have hd1 : pyfloordiv (n - t) 2 ≤ n - t := pyfloordiv_two_le (by omega)
  cases crop_type <;> simp only [crop_anchor_y] <;> omega

lemma crop_tx_int_bounds (ow oh tw th : ℤ)
    (how : 0 < ow) (hoh : 0 < oh) (htw : 0 < tw) (hth : 0 < th) :
    0 ≤ crop_tx_int ow oh tw th ∧ crop_tx_int ow oh tw th ≤ ow := by
  have hA : (0:ℚ) < (ow : ℚ) := by exact_mod_cast how
  have hD : (0:ℚ) < (th : ℚ) := by exact_mod_cast hth
  unfold crop_tx_int
  split_ifs with h
  · constructor
    · exact Int.floor_nonneg.mpr (by positivity)
    · have hlt : (tw : ℚ) * (oh : ℚ) / (th : ℚ) < (ow : ℚ) := by
        rw [div_lt_iff₀ hD]
        have : ((tw * oh : ℤ) : ℚ) < ((ow * th : ℤ) : ℚ) := by exact_mod_cast h
        push_cast at this
        linarith
      have hle := Int.floor_le_floor (le_of_lt hlt)
      rwa [Int.floor_intCast] at hle
  · exact ⟨le_of_lt how, le_refl ow⟩

lemma crop_ty_int_bounds (ow oh tw th : ℤ)
    (how : 0 < ow) (hoh : 0 < oh) (htw : 0 < tw) (hth : 0 < th) :
    0 ≤ crop_ty_int ow oh tw th ∧ crop_ty_int ow oh tw th ≤ oh := by
  have hB : (0:ℚ) < (oh : ℚ) := by exact_mod_cast hoh
  have hC : (0:ℚ) < (tw : ℚ) := by exact_mod_cast htw
  unfold crop_ty_int
  split_ifs with h
  · constructor
    · exact Int.floor_nonneg.mpr (by positivity)
    · have hlt : (ow : ℚ) * (th : ℚ) / (tw : ℚ) < (oh : ℚ) := by
        rw [div_lt_iff₀ hC]
        have : ((ow * th : ℤ) : ℚ) < ((tw * oh : ℤ) : ℚ) := by exact_mod_cast h
        push_cast at this
        linarith
      have hle := Int.floor_le_floor (le_of_lt hlt)
      rwa [Int.floor_intCast] at hle
  · exact ⟨le_of_lt hoh, le_refl oh⟩

/-- C10 counterexample: at source size 1×10, target size 100×1 and the
`'center'` anchor, the crop rectangle is (0, 5, 1, 5): the computed crop
height truncates to zero, so `y1 < y2` fails and the claimed bounds
`0 ≤ y1 < y2 ≤ source_h` do not hold. -/
theorem c10_crop_bounds_counterexample :
    new_size_by_croping_ratio (1, 10) (100, 1) CropAnchor.center = (0, 5, 1, 5) ∧
    ¬ crop_claim_ok (1, 10) (100, 1) CropAnchor.center := by
  have hr : new_size_by_croping_ratio (1, 10) (100, 1) CropAnchor.center = (0, 5, 1, 5) := by
    rw [new_size_by_croping_eq 1 10 100 1 CropAnchor.center (by norm_num) (by norm_num)
      (by norm_num) (by norm_num)]
    norm_num [crop_tx_int, crop_ty_int, crop_anchor_x, crop_anchor_y, pyfloordiv]
    decide
  refine ⟨hr, ?_⟩
  unfold crop_claim_ok
  rw [hr]
  norm_num

/-- C10 (amended): for all strictly positive source and target sizes and all
nine anchors, the crop rectangle (x1, y1, x2, y2) satisfies the weak bounds
`0 ≤ x1 ≤ x2 ≤ source_w` and `0 ≤ y1 ≤ y2 ≤ source_h`; the strict bounds
`x1 < x2` and `y1 < y2` claimed by the spec additionally need the truncated
crop dimensions to be nonzero, which holds whenever `tw ≤ ow * th` and
`th ≤ tw * oh`. -/
theorem c10_crop_bounds (ow oh tw th : ℤ) (crop_type : CropAnchor)
    (how : 0 < ow) (hoh : 0 < oh) (htw : 0 < tw) (hth : 0 < th) :
    0 ≤ (new_size_by_croping_ratio (ow, oh) (tw, th) crop_type).1 ∧
    (new_size_by_croping_ratio (ow, oh) (tw, th) crop_type).1 ≤
      (new_size_by_croping_ratio (ow, oh) (tw, th) crop_type).2.2.1 ∧
    (new_size_by_croping_ratio (ow, oh) (tw, th) crop_type).2.2.1 ≤ ow ∧
    0 ≤ (new_size_by_croping_ratio (ow, oh) (tw, th) crop_type).2.1 ∧
    (new_size_by_croping_ratio (ow, oh) (tw, th) crop_type).2.1 ≤
      (new_size_by_croping_ratio (ow, oh) (tw, th) crop_type).2.2.2 ∧
    (new_size_by_croping_ratio (ow, oh) (tw, th) crop_type).2.2.2 ≤ oh ∧
    (tw ≤ ow * th → th ≤ tw * oh →
      (new_size_by_croping_ratio (ow, oh) (tw, th) crop_type).1 <
        (new_size_by_croping_ratio (ow, oh) (tw, th) crop_type).2.2.1 ∧
      (new_size_by_croping_ratio (ow, oh) (tw, th) crop_type).2.1 <
        (new_size_by_croping_ratio (ow, oh) (tw, th) crop_type).2.2.2) := by
  have hC : (0:ℚ) < (tw : ℚ) := by exact_mod_cast htw
  have hD : (0:ℚ) < (th : ℚ) := by exact_mod_cast hth
  obtain ⟨htx0, htx1⟩ := crop_tx_int_bounds ow oh tw th how hoh htw hth
  obtain ⟨hty0, hty1⟩ := crop_ty_int_bounds ow oh tw th how hoh htw hth
  obtain ⟨hax0, hax1⟩ := crop_anchor_x_bounds crop_type htx0 htx1
  obtain ⟨hay0, hay1⟩ := crop_anchor_y_bounds crop_type hty0 hty1
  rw [new_size_by_croping_eq ow oh tw th crop_type how hoh htw hth]
  dsimp only
  refine ⟨hax0, by omega, by omega, hay0, by omega, by omega, fun hx hy => ?_⟩
  have htxp : 1 ≤ crop_tx_int ow oh tw th := by
    unfold crop_tx_int
    split_ifs with h
    · refine Int.le_floor.mpr ?_
      rw [le_div_iff₀ hD]
      have : ((th : ℤ) : ℚ) ≤ ((tw * oh : ℤ) : ℚ) := by exact_mod_cast hy
      push_cast at this
      push_cast
      linarith
    · omega
  have htyp : 1 ≤ crop_ty_int ow oh tw th := by
    unfold crop_ty_int
    split_ifs with h
    · refine Int.le_floor.mpr ?_
      rw [le_div_iff₀ hC]
      have : ((tw : ℤ) : ℚ) ≤ ((ow * th : ℤ) : ℚ) := by exact_mod_cast hx
      push_cast at this
      push_cast
      linarith
    · omega
  constructor <;> omega

/-- Witness for C10 at source 1920×1080, target ratio 4:3, center anchor. -/
theorem c10_crop_bounds_witness :
    0 ≤ (new_size_by_croping_ratio (1920, 1080) (4, 3) CropAnchor.center).1 ∧
    (new_size_by_croping_ratio (1920, 1080) (4, 3) CropAnchor.center).1 ≤
      (new_size_by_croping_ratio (1920, 1080) (4, 3) CropAnchor.center).2.2.1 ∧
    (new_size_by_croping_ratio (1920, 1080) (4, 3) CropAnchor.center).2.2.1 ≤ 1920 ∧
    0 ≤ (new_size_by_croping_ratio (1920, 1080) (4, 3) CropAnchor.center).2.1 ∧
    (new_size_by_croping_ratio (1920, 1080) (4, 3) CropAnchor.center).2.1 ≤
      (new_size_by_croping_ratio (1920, 1080) (4, 3) CropAnchor.center).2.2.2 ∧
    (new_size_by_croping_ratio (1920, 1080) (4, 3) CropAnchor.center).2.2.2 ≤ 1080 ∧
    (4 ≤ (1920 : ℤ) * 3 → 3 ≤ (4 : ℤ) * 1080 →
      (new_size_by_croping_ratio (1920, 1080) (4, 3) CropAnchor.center).1 <
        (new_size_by_croping_ratio (1920, 1080) (4, 3) CropAnchor.center).2.2.1 ∧
      (new_size_by_croping_ratio (1920, 1080) (4, 3) CropAnchor.center).2.1 <
        (new_size_by_croping_ratio (1920, 1080) (4, 3) CropAnchor.center).2.2.2) :=
  c10_crop_bounds 1920 1080 4 3 CropAnchor.center (by decide) (by decide) (by decide) (by decide)

/-- C8: for all strictly positive source and target sizes, the inner-mode
aspect-preserving fit returns a size with the same aspect ratio as the source
(the untruncated pair is an exact scaling of the source, truncation only
drops the fractional part) and with neither dimension exceeding the target;
in particular source 1920×1080 fitted inner into 400×300 yields (400, 225). -/
theorem c8_fit_inner (ow oh tw th : ℤ)
    (how : 0 < ow) (hoh : 0 < oh) (htw : 0 < tw) (hth : 0 < th) :
    (new_size_keep_aspect_ratio (ow, oh) (tw, th) ResizeType.inner).1 ≤ tw ∧
    (new_size_keep_aspect_ratio (ow, oh) (tw, th) ResizeType.inner).2 ≤ th ∧
    (∃ q : ℚ, 0 < q ∧
      (new_size_keep_aspect_ratio (ow, oh) (tw, th) ResizeType.inner).1 = ⌊q * (ow : ℚ)⌋ ∧
      (new_size_keep_aspect_ratio (ow, oh) (tw, th) ResizeType.inner).2 = ⌊q * (oh : ℚ)⌋) ∧
    new_size_keep_aspect_ratio (1920, 1080) (400, 300) ResizeType.inner = (400, 225) := by
  have hA : (0:ℚ) < (ow : ℚ) := by exact_mod_cast how
  have hB : (0:ℚ) < (oh : ℚ) := by exact_mod_cast hoh
  have hC : (0:ℚ) < (tw : ℚ) := by exact_mod_cast htw
  have hD : (0:ℚ) < (th : ℚ) := by exact_mod_cast hth
  have hs : new_size_keep_aspect_ratio (1920, 1080) (400, 300) ResizeType.inner = (400, 225) := by
    rw [new_size_inner_eq 1920 1080 400 300 (by norm_num) (by norm_num) (by norm_num)
      (by norm_num)]
    norm_num
  rw [new_size_inner_eq ow oh tw th how hoh htw hth]
  split_ifs with h1 h2
  · have hlt : (th : ℚ) / (oh : ℚ) * (ow : ℚ) < (tw : ℚ) := by
      rw [div_mul_eq_mul_div, div_lt_iff₀ hB]
      have : ((ow * th : ℤ) : ℚ) < ((tw * oh : ℤ) : ℚ) := by exact_mod_cast h1
      push_cast at this
      linarith
    refine ⟨?_, le_refl th, ⟨(th : ℚ) / (oh : ℚ), by positivity, rfl, ?_⟩, hs⟩
    · have hle := Int.floor_le_floor (le_of_lt hlt)
      rwa [Int.floor_intCast] at hle
    · rw [div_mul_cancel₀ _ (ne_of_gt hB), Int.floor_intCast]
  · have hlt : (tw : ℚ) / (ow : ℚ) * (oh : ℚ) < (th : ℚ) := by
      rw [div_mul_eq_mul_div, div_lt_iff₀ hA]
      have : ((tw * oh : ℤ) : ℚ) < ((ow * th : ℤ) : ℚ) := by exact_mod_cast h2
      push_cast at this
      linarith
    refine ⟨le_refl tw, ?_, ⟨(tw : ℚ) / (ow : ℚ), by positivity, ?_, rfl⟩, hs⟩
    · have hle := Int.floor_le_floor (le_of_lt hlt)
      rwa [Int.floor_intCast] at hle
    · rw [div_mul_cancel₀ _ (ne_of_gt hA), Int.floor_intCast]
  · have heq : ow * th = tw * oh := by omega
    have heq' : (tw : ℚ) * (oh : ℚ) = (ow : ℚ) * (th : ℚ) := by exact_mod_cast heq.symm
    refine ⟨le_refl tw, le_refl th, ⟨(tw : ℚ) / (ow : ℚ), by positivity, ?_, ?_⟩, hs⟩
    · rw [div_mul_cancel₀ _ (ne_of_gt hA), Int.floor_intCast]
    · rw [div_mul_eq_mul_div, heq', mul_div_cancel_left₀ _ (ne_of_gt hA), Int.floor_intCast]

/-- Witness for C8 at source 1920×1080 and target 400×300. -/
theorem c8_fit_inner_witness :
    (new_size_keep_aspect_ratio (1920, 1080) (400, 300) ResizeType.inner).1 ≤ 400 ∧
    (new_size_keep_aspect_ratio (1920, 1080) (400, 300) ResizeType.inner).2 ≤ 300 ∧
    (∃ q : ℚ, 0 < q ∧
      (new_size_keep_aspect_ratio (1920, 1080) (400, 300) ResizeType.inner).1 = ⌊q * (1920 : ℚ)⌋ ∧
      (new_size_keep_aspect_ratio (1920, 1080) (400, 300) ResizeType.inner).2 = ⌊q * (1080 : ℚ)⌋) ∧
    new_size_keep_aspect_ratio (1920, 1080) (400, 300) ResizeType.inner = (400, 225) :=
  c8_fit_inner 1920 1080 400 300 (by decide) (by decide) (by decide) (by decide)

/-- C9: for all strictly positive source and target sizes, the outer-mode
aspect-preserving fit returns a size with the same aspect ratio as the source
and with both dimensions at least the corresponding target dimension; in
particular source 1920×1080 fitted outer into 400×300 yields (533, 300). -/
theorem c9_fit_outer (ow oh tw th : ℤ)
    (how : 0 < ow) (hoh : 0 < oh) (htw : 0 < tw) (hth : 0 < th) :
    tw ≤ (new_size_keep_aspect_ratio (ow, oh) (tw, th) ResizeType.outer).1 ∧
    th ≤ (new_size_keep_aspect_ratio (ow, oh) (tw, th) ResizeType.outer).2 ∧
    (∃ q : ℚ, 0 < q ∧
      (new_size_keep_aspect_ratio (ow, oh) (tw, th) ResizeType.outer).1 = ⌊q * (ow : ℚ)⌋ ∧
      (new_size_keep_aspect_ratio (ow, oh) (tw, th) ResizeType.outer).2 = ⌊q * (oh : ℚ)⌋) ∧
    new_size_keep_aspect_ratio (1920, 1080) (400, 300) ResizeType.outer = (533, 300) := by
  have hA : (0:ℚ) < (ow : ℚ) := by exact_mod_cast how
  have hB : (0:ℚ) < (oh : ℚ) := by exact_mod_cast hoh
  have hC : (0:ℚ) < (tw : ℚ) := by exact_mod_cast htw
  have hD : (0:ℚ) < (th : ℚ) := by exact_mod_cast hth
  have hs : new_size_keep_aspect_ratio (1920, 1080) (400, 300) ResizeType.outer = (533, 300) := by
    rw [new_size_outer_eq 1920 1080 400 300 (by norm_num) (by norm_num) (by norm_num)
      (by norm_num)]
    norm_num
  rw [new_size_outer_eq ow oh tw th how hoh htw hth]
  split_ifs with h1 h2
  · have hlt : (th : ℚ) < (tw : ℚ) / (ow : ℚ) * (oh : ℚ) := by
      rw [div_mul_eq_mul_div, lt_div_iff₀ hA]
      have : ((ow * th : ℤ) : ℚ) < ((tw * oh : ℤ) : ℚ) := by exact_mod_cast h1
      push_cast at this
      linarith
    refine ⟨le_refl tw, Int.le_floor.mpr (le_of_lt hlt), ⟨(tw : ℚ) / (ow : ℚ),
      by positivity, ?_, rfl⟩, hs⟩
    rw [div_mul_cancel₀ _ (ne_of_gt hA), Int.floor_intCast]
  · have hlt : (tw : ℚ) < (th : ℚ) / (oh : ℚ) * (ow : ℚ) := by
      rw [div_mul_eq_mul_div, lt_div_iff₀ hB]
      have : ((tw * oh : ℤ) : ℚ) < ((ow * th : ℤ) : ℚ) := by exact_mod_cast h2
      push_cast at this
      linarith
    refine ⟨Int.le_floor.mpr (le_of_lt hlt), le_refl th, ⟨(th : ℚ) / (oh : ℚ),
      by positivity, rfl, ?_⟩, hs⟩
    rw [div_mul_cancel₀ _ (ne_of_gt hB), Int.floor_intCast]
  · have heq : ow * th = tw * oh := by omega
    have heq' : (tw : ℚ) * (oh : ℚ) = (ow : ℚ) * (th : ℚ) := by exact_mod_cast heq.symm
    refine ⟨le_refl tw, le_refl th, ⟨(tw : ℚ) / (ow : ℚ), by positivity, ?_, ?_⟩, hs⟩
    · rw [div_mul_cancel₀ _ (ne_of_gt hA), Int.floor_intCast]
    · rw [div_mul_eq_mul_div, heq', mul_div_cancel_left₀ _ (ne_of_gt hA), Int.floor_intCast]

/-- Witness for C9 at source 1920×1080 and target 400×300. -/
theorem c9_fit_outer_witness :
    400 ≤ (new_size_keep_aspect_ratio (1920, 1080) (400, 300) ResizeType.outer).1 ∧
    300 ≤ (new_size_keep_aspect_ratio (1920, 1080) (400, 300) ResizeType.outer).2 ∧
    (∃ q : ℚ, 0 < q ∧
      (new_size_keep_aspect_ratio (1920, 1080) (400, 300) ResizeType.outer).1 = ⌊q * (1920 : ℚ)⌋ ∧
      (new_size_keep_aspect_ratio (1920, 1080) (400, 300) ResizeType.outer).2 = ⌊q * (1080 : ℚ)⌋) ∧
    new_size_keep_aspect_ratio (1920, 1080) (400, 300) ResizeType.outer = (533, 300) :=
  c9_fit_outer 1920 1080 400 300 (by decide) (by decide) (by decide) (by decide)

/-! ## Task pool (`src/cam/utils.py`, `AsyncTasksPool`)

All `AsyncTasksPool` objects share one `concurrent.futures.ThreadPoolExecutor`
(the first constructed pool stores itself in the `AsyncTask.POOL` class
attribute and later constructions reuse `AsyncTask.POOL._pool`), so the
executor together with the `stop_event` attribute set on it is the whole
relevant state.  The `shutdown` field models the executor's internal
shutdown flag (documented stdlib behaviour: `ThreadPoolExecutor.shutdown`
sets it and any later `submit` raises `RuntimeError("cannot schedule new
futures after shutdown")`). -/

/-- State of the shared `ThreadPoolExecutor` object. -/
structure ExecState where
  /-- The executor's internal shutdown flag (stdlib `ThreadPoolExecutor`). -/
  shutdown : Bool
  /-- The `stop_event` threading.Event attribute that `AsyncTasksPool.__init__`
  installs on the executor and `quit` sets. -/
  stop_event : Bool
deriving DecidableEq, Repr

/-- The two ways `start_task` can fail. -/
inductive SubmitError where
  /-- `RuntimeError("AsyncTasksPool is shutting down")` raised by `start_task`. -/
  | poolShuttingDown
  /-- `RuntimeError("cannot schedule new futures after shutdown")` raised by
  the stdlib executor's `submit`. -/
  | executorShutdown
deriving DecidableEq, Repr

/-- Embedding of `AsyncTasksPool.__init__`: the first construction creates a fresh
executor, later constructions reuse the shared one; in both cases the line
`self._pool.stop_event = threading.Event()` installs a fresh (unset) event
on the shared executor. -/
def pool_init (shared : Option ExecState) : ExecState :=
  match shared with
  | none => { shutdown := false, stop_event := false }
  | some e => { e with stop_event := false }

/-- Embedding of `AsyncTasksPool.start_task`: fail fast if the stop event is set, then
submit to the executor (which fails if the executor has been shut down). -/
def start_task (e : ExecState) : Except SubmitError ExecState :=
  if e.stop_event then .error .poolShuttingDown
  else if e.shutdown then .error .executorShutdown
  else .ok e

/-- Embedding of `AsyncTasksPool.quit`: set the stop event, kill the tracked tasks,
and shut the executor down (`self._pool.shutdown(wait=True)`). -/
def pool_quit (e : ExecState) : ExecState :=
  { e with stop_event := true, shutdown := true }

/-- The operations on the shared pool state that can follow a `quit`. -/
inductive PoolOp where
  /-- Constructing another `AsyncTasksPool()` object. -/
  | construct
  /-- Calling `quit()` again. -/
  | quit
deriving DecidableEq, Repr

/-- Apply a sequence of pool operations to the shared executor state. -/
def apply_pool_ops (e : ExecState) : List PoolOp → ExecState
  | [] => e
  | .construct :: ops => apply_pool_ops (pool_init (some e)) ops
  | .quit :: ops => apply_pool_ops (pool_quit e) ops

lemma apply_pool_ops_shutdown (e : ExecState) (ops : List PoolOp)
    (h : e.shutdown = true) : (apply_pool_ops e ops).shutdown = true := by
  induction ops generalizing e with
  | nil => exact h
  | cons op ops ih =>
    cases op
    · exact ih _ h
    · exact ih _ rfl

/-- C1 counterexample: starting from a fresh pool, calling `quit()` and then
constructing another `AsyncTasksPool()` object resets the stop event on the
shared executor, so the next `start_task` no longer fails with the
pool-shutting-down error (it fails with the executor's own shutdown error
instead), refuting "every subsequent submission fails with the
pool-shutting-down error". -/
theorem c1_pool_shutdown_counterexample :
    start_task (apply_pool_ops (pool_quit (pool_init none)) [PoolOp.construct]) =
      .error SubmitError.executorShutdown ∧
    start_task (apply_pool_ops (pool_quit (pool_init none)) [PoolOp.construct]) ≠
      .error SubmitError.poolShuttingDown :=
  ⟨rfl, fun h => nomatch h⟩

/-- C1 (amended): immediately after `quit()`, `start_task` fails with the
pool-shutting-down error; and after any further sequence of pool
constructions and quits — constructing another pool object clears the stop
event, making the error change to the executor's shutdown error — no
submission ever succeeds again, because the shared executor stays shut
down. -/
theorem c1_pool_shutdown (e : ExecState) (ops : List PoolOp) :
    start_task (pool_quit e) = .error SubmitError.poolShuttingDown ∧
    (start_task (apply_pool_ops (pool_quit e) ops)).toOption = none := by
  refine ⟨rfl, ?_⟩
  have hsd : (apply_pool_ops (pool_quit e) ops).shutdown = true :=
    apply_pool_ops_shutdown _ ops rfl
  unfold start_task
  split_ifs <;> rfl

/-! ## Task execution loop (`src/cam/utils.py`, `AsyncTask.__call__` / `emit`) -/

/-- One invocation of the wrapped runnable: it returns a value or raises. -/
inductive RunOutcome (α : Type) where
  /-- The runnable returned `a`. -/
  | ok (a : α)
  /-- The runnable raised exception `e`. -/
  | fail (e : ℕ)
deriving DecidableEq, Repr

/-- An event posted by `AsyncTask.emit`: either `Event(type, result=data,
exception=None)` on success or `Event(type, result=None, exception=ex)` on
failure. -/
inductive TaskEvent (α : Type) where
  /-- Success event carrying the result. -/
  | result (a : α)
  /-- Failure event carrying the exception. -/
  | failure (e : ℕ)
deriving DecidableEq, Repr

/-- Embedding of `AsyncTask.__call__` as a trace function: `event_set` is whether the
constructor received an event type (`self.event_type is not None`, the guard
inside `emit`), `loop` is the loop flag, and the list enumerates the
successive outcomes the runnable would produce.  The returned list is the
sequence of events posted.  The loop also exits when `_stop_event` is set or
the producer is exhausted, which is modelled by the outcome list ending. -/
def task_run {α : Type} (event_set loop : Bool) : List (RunOutcome α) → List (TaskEvent α)
  | [] => []
  | .ok a :: rest =>
    (if event_set then [TaskEvent.result a] else []) ++
      (if loop then task_run event_set loop rest else [])
  | .fail e :: _ =>
    if event_set then [TaskEvent.failure e] else []

/-- C3 counterexample: a task with no event kind set whose runnable fails
posts zero events, refuting "if the runnable fails on any iteration, exactly
one event carrying the failure is posted" (the failure emit is guarded by
the same `event_type is not None` check as the success emit). -/
theorem c3_task_loop_counterexample :
    task_run false true [RunOutcome.fail 3] = ([] : List (TaskEvent ℕ)) ∧
    (task_run false true [RunOutcome.fail 3] : List (TaskEvent ℕ)).length = 0 := by
  constructor <;> rfl

/-- C3 (amended): on each successful invocation an event carrying the result
is posted if and only if the event kind is set; with `loop = false` the task
stops after its first successful iteration; a failure stops the task
unconditionally — later outcomes are never reached even with `loop = true` —
and posts exactly one failure event if the event kind is set, none
otherwise. -/
theorem c3_task_loop {α : Type} (oks : List α) (e : ℕ) (rest : List (RunOutcome α))
    (a : α) (outcomes : List (RunOutcome α)) (loop : Bool) :
    task_run true true (oks.map RunOutcome.ok ++ RunOutcome.fail e :: rest) =
      oks.map TaskEvent.result ++ [TaskEvent.failure e] ∧
    task_run true false (RunOutcome.ok a :: outcomes) = [TaskEvent.result a] ∧
    task_run false false (RunOutcome.ok a :: outcomes) = ([] : List (TaskEvent α)) ∧
    task_run false loop outcomes = ([] : List (TaskEvent α)) ∧
    task_run true loop (RunOutcome.fail e :: rest) = [TaskEvent.failure e] := by
  refine ⟨?_, rfl, rfl, ?_, by cases loop <;> rfl⟩
  · induction oks with
    | nil => rfl
    | cons x xs ih => simpa [task_run] using ih
  · induction outcomes with
    | nil => rfl
    | cons o os ih => cases o <;> simp [task_run, ih]

/-! ## Dirty sprites (`src/cam/use_update_dirty_on_event.py`)

`BaseSprite` / `ImageSprite` state relevant to the claims.  The skin stored
in `_image_orig` is a tagged value; a pygame `Surface` carries an object
identity `id` besides its pixel `content` because `pygame.Surface` does not
define `__eq__`, so Python's `!=` compares identity for surfaces, while PIL
images (`PIL.Image.Image.__eq__`) and color tuples compare by value.
Rendered images are modelled as records of the inputs `draw()` reads, since
the pygame transforms are deterministic functions of those inputs. -/

/-- A skin value stored in `ImageSprite._image_orig`. -/
inductive StoredSkin where
  /-- An RGB color tuple. -/
  | rgb (r g b : ℕ)
  /-- A PIL image object with the given pixel content. -/
  | pil (content : ℕ)
  /-- A pygame surface object: `id` is the object identity. -/
  | surface (id content : ℕ)
  /-- The surface produced by `load_pygame_image(self.path)` inside `draw`. -/
  | loaded (p : String)
deriving DecidableEq, Repr

/-- An argument passed to `ImageSprite.set_skin` (or carried by a camera
event as `event.result`). -/
inductive SkinArg where
  /-- A path string. -/
  | path (p : String)
  /-- An RGB color tuple. -/
  | rgb (r g b : ℕ)
  /-- A PIL image object. -/
  | pil (content : ℕ)
  /-- A pygame surface object. -/
  | surface (id content : ℕ)
  /-- Python `None` — what `event.result` holds in a task-failure event. -/
  | pynone
deriving DecidableEq, Repr

/-- Python `==` between a skin argument and the stored skin, as evaluated by
`skin != self._image_orig`: tuples and PIL images compare by value, pygame
surfaces by object identity, different types are never equal. -/
def skin_eq_py : SkinArg → Option StoredSkin → Bool
  | .rgb r g b, some (.rgb r' g' b') => r == r' && g == g' && b == b'
  | .pil c, some (.pil c') => c == c'
  | .surface i _, some (.surface i' _) => i == i'
  | _, _ => false

/-- A rendered sprite image, recorded as the inputs `ImageSprite.draw` feeds
to the pygame calls. -/
inductive Rendered where
  /-- The color-tuple branch: `pygame.Surface(self.rect.size).fill(color)` —
  it ignores the transform flags. -/
  | fill (r g b : ℕ) (w h : ℤ)
  /-- The image branches: `transform_pygame_image(surface, self.rect.size,
  hflip, vflip, angle, crop, color if colorize else None)`. -/
  | transformed (src : StoredSkin) (w h : ℤ) (hflip vflip : Bool) (angle : ℤ)
      (crop : Bool) (color : Option (ℕ × ℕ × ℕ))
deriving DecidableEq, Repr

/-- The errors the sprite operations can raise. -/
inductive SpriteError where
  /-- The `assert width > 0` / `assert height > 0` in `set_rect`
  (the spec's `InvalidDimensions`). -/
  | invalidDimensions
  /-- The `assert isinstance(skin, (PIL.Image.Image, pygame.Surface))` in
  `set_skin`. -/
  | invalidSkin
  /-- The `raise ValueError` in `draw` when no skin is available. -/
  | missingPath
deriving DecidableEq, Repr

/-- State of an `ImageSprite` (with the inherited `BaseSprite` fields). -/
structure Sprite where
  path : Option String
  image_orig : Option StoredSkin
  crop : Bool
  hflip : Bool
  vflip : Bool
  angle : ℤ
  colorize : Bool
  color : Option (ℕ × ℕ × ℕ)
  rect_x : ℤ
  rect_y : ℤ
  rect_w : ℤ
  rect_h : ℤ
  dirty : ℕ
  visible : ℕ
  cache : Option Rendered
deriving DecidableEq, Repr

/-- Embedding of `BaseSprite.set_dirty(redraw)`: mark dirty and, if `redraw`, drop the
cached image. -/
def set_dirty (redraw : Bool) (s : Sprite) : Sprite :=
  { s with dirty := 1, cache := if redraw then none else s.cache }

/-- Embedding of `ImageSprite.set_skin(skin)`. -/
def set_skin (skin : SkinArg) (s : Sprite) : Except SpriteError Sprite :=
  match skin with
  | .path p =>
    if s.path = some p then .ok s
    else .ok (set_dirty true { s with path := some p, image_orig := none })
  | .rgb r g b =>
    if skin_eq_py (.rgb r g b) s.image_orig then .ok s
    else .ok (set_dirty true { s with path := none, image_orig := some (.rgb r g b) })
  | .pil c =>
    if skin_eq_py (.pil c) s.image_orig then .ok s
    else .ok (set_dirty true { s with path := none, image_orig := some (.pil c) })
  | .surface i c =>
    if skin_eq_py (.surface i c) s.image_orig then .ok s
    else .ok (set_dirty true { s with path := none, image_orig := some (.surface i c) })
  | .pynone => .error .invalidSkin

/-- Embedding of `ImageSprite.set_crop(crop)`. -/
def set_crop (crop : Bool) (s : Sprite) : Sprite :=
  if crop ≠ s.crop then set_dirty true { s with crop := crop } else s

/-- Embedding of `ImageSprite.set_flip(hflip, vflip)`; passing `None` skips an axis. -/
def set_flip (hflip vflip : Option Bool) (s : Sprite) : Sprite :=
  let s1 := match hflip with
    | some hf => if hf ≠ s.hflip then set_dirty true { s with hflip := hf } else s
    | none => s
  match vflip with
  | some vf => if vf ≠ s1.vflip then set_dirty true { s1 with vflip := vf } else s1
  | none => s1

/-- Embedding of `ImageSprite.set_angle(angle)`. -/
def set_angle (angle : ℤ) (s : Sprite) : Sprite :=
  if angle ≠ s.angle then set_dirty true { s with angle := angle } else s

/-- Embedding of `BaseSprite.set_color(color)`. -/
def set_color (color : Option (ℕ × ℕ × ℕ)) (s : Sprite) : Sprite :=
  if color ≠ s.color then set_dirty true { s with color := color } else s

/-- Embedding of `BaseSprite.set_rect(x, y, width, height)`. -/
def set_rect (x y width height : ℤ) (s : Sprite) : Except SpriteError Sprite :=
  if width ≤ 0 then .error .invalidDimensions
  else if height ≤ 0 then .error .invalidDimensions
  else
    let s1 := if (s.rect_x, s.rect_y) ≠ (x, y) then
        set_dirty false { s with rect_x := x, rect_y := y } else s
    let s2 := if (s1.rect_w, s1.rect_h) ≠ (width, height) then
        set_dirty true { s1 with rect_w := width, rect_h := height } else s1
    .ok s2

/-- What `draw` renders from a resolved skin. -/
def rendered_of (s : Sprite) (o : StoredSkin) : Rendered :=
  match o with
  | .rgb r g b => .fill r g b s.rect_w s.rect_h
  | o => .transformed o s.rect_w s.rect_h s.hflip s.vflip s.angle s.crop
      (if s.colorize then s.color else none)

/-- Embedding of `ImageSprite.draw`: resolve `_image_orig` (loading from `self.path` when
absent — `if self.path:` is false for an empty string) and render.  Returns
the rendered image together with the updated sprite, since loading mutates
`_image_orig`. -/
def draw (s : Sprite) : Except SpriteError (Rendered × Sprite) :=
  match s.image_orig with
  | none =>
    match s.path with
    | some p =>
      if p = "" then .error .missingPath
      else
        let s1 := { s with image_orig := some (.loaded p) }
        .ok (rendered_of s1 (.loaded p), s1)
    | none => .error .missingPath
  | some o => .ok (rendered_of s o, s)

/-- The `BaseSprite.image` property (the spec's `render()`): return the
cached image if present, otherwise draw, store the result in the cache and
return it.  The dirty flag is not touched. -/
def sprite_image (s : Sprite) : Except SpriteError (Rendered × Sprite) :=
  match s.cache with
  | some c => .ok (c, s)
  | none =>
    match draw s with
    | .error err => .error err
    | .ok (img, s1) => .ok (img, { s1 with cache := some img })

/-- The skin `draw` would use: the stored one, or the one `self.path` would
load. -/
def resolved_orig (s : Sprite) : Option StoredSkin :=
  match s.image_orig with
  | some o => some o
  | none =>
    match s.path with
    | some p => if p = "" then none else some (.loaded p)
    | none => none

/-- The image that rendering the sprite's current skin, transform flags and
rectangle size produces (independently of the cache). -/
def renderValue (s : Sprite) : Option Rendered := (resolved_orig s).map (rendered_of s)

/-- Cache coherence: a present cached image is exactly the rendering of the
current state. -/
def Coherent (s : Sprite) : Prop := ∀ c, s.cache = some c → renderValue s = some c

/-- A mutator call on an `ImageSprite`. -/
inductive Mut where
  | mSkin (a : SkinArg)
  | mCrop (b : Bool)
  | mFlip (hflip vflip : Option Bool)
  | mAngle (a : ℤ)
  | mRect (x y w h : ℤ)
  | mColor (c : Option (ℕ × ℕ × ℕ))
deriving DecidableEq, Repr

/-- Apply one mutator. -/
def apply_mut (m : Mut) (s : Sprite) : Except SpriteError Sprite :=
  match m with
  | .mSkin a => set_skin a s
  | .mCrop b => .ok (set_crop b s)
  | .mFlip hf vf => .ok (set_flip hf vf s)
  | .mAngle a => .ok (set_angle a s)
  | .mRect x y w h => set_rect x y w h s
  | .mColor c => .ok (set_color c s)

/-- Apply a sequence of mutators, stopping at the first error. -/
def apply_muts : List Mut → Sprite → Except SpriteError Sprite
  | [], s => .ok s
  | m :: ms, s =>
    match apply_mut m s with
    | .error e => .error e
    | .ok s1 => apply_muts ms s1

lemma coherent_of_cache_none {s : Sprite} (h : s.cache = none) : Coherent s :=
  fun c hc => absurd (h ▸ hc) (fun hx => Option.noConfusion hx)

lemma set_dirty_true_cache (s : Sprite) : (set_dirty true s).cache = none := rfl

/-- Lemma: `set_flip` either leaves the sprite untouched or drops the cache. -/
lemma set_flip_cases (hf vf : Option Bool) (s : Sprite) :
    set_flip hf vf s = s ∨ (set_flip hf vf s).cache = none := by
  simp only [set_flip]
  cases hf <;> cases vf <;> dsimp only <;>
    first
      | exact Or.inl rfl
      | (split_ifs <;>
          first
            | exact Or.inl rfl
            | exact Or.inr rfl)

/-- A position-only rectangle update keeps the cache and everything
`renderValue` reads. -/
lemma coherent_pos_update (s : Sprite) (x y : ℤ) (hc : Coherent s) :
    Coherent (set_dirty false { s with rect_x := x, rect_y := y }) :=
  fun c hcc => hc c hcc

/-- Closed form of `set_rect` when the dimensions are admissible. -/
lemma set_rect_eq_of_pos (x y w h : ℤ) (s : Sprite) (hw : ¬ w ≤ 0) (hh : ¬ h ≤ 0) :
    set_rect x y w h s =
      .ok (let s1 := if (s.rect_x, s.rect_y) ≠ (x, y) then
            set_dirty false { s with rect_x := x, rect_y := y } else s
          if (s1.rect_w, s1.rect_h) ≠ (w, h) then
            set_dirty true { s1 with rect_w := w, rect_h := h } else s1) := by
  unfold set_rect
  rw [if_neg hw, if_neg hh]

/-- Lemma: `set_rect` preserves cache coherence. -/
lemma set_rect_coherent (x y w h : ℤ) (s s' : Sprite) (hc : Coherent s)
    (hok : set_rect x y w h s = .ok s') : Coherent s' := by
  by_cases hw : w ≤ 0
  · unfold set_rect at hok
    rw [if_pos hw] at hok
    exact absurd hok (fun hx => Except.noConfusion hx)
  by_cases hh2 : h ≤ 0
  · unfold set_rect at hok
    rw [if_neg hw, if_pos hh2] at hok
    exact absurd hok (fun hx => Except.noConfusion hx)
  rw [set_rect_eq_of_pos x y w h s hw hh2] at hok
  have hs' := (Except.ok.inj hok).symm
  by_cases h1 : (s.rect_x, s.rect_y) ≠ (x, y)
  · simp only [if_pos h1] at hs'
    by_cases h2 : (((set_dirty false { s with rect_x := x, rect_y := y }).rect_w,
        (set_dirty false { s with rect_x := x, rect_y := y }).rect_h) : ℤ × ℤ) ≠ (w, h)
    · simp only [if_pos h2] at hs'
      subst hs'
      exact coherent_of_cache_none rfl
    · simp only [if_neg h2] at hs'
      subst hs'
      exact coherent_pos_update s x y hc
  · simp only [if_neg h1] at hs'
    by_cases h2 : ((s.rect_w, s.rect_h) : ℤ × ℤ) ≠ (w, h)
    · simp only [if_pos h2] at hs'
      subst hs'
      exact coherent_of_cache_none rfl
    · simp only [if_neg h2] at hs'
      subst hs'
      exact hc

/-- Every mutator preserves cache coherence: it leaves the sprite unchanged,
drops the cache, or (position-only `set_rect`) changes fields `renderValue`
does not read. -/
lemma apply_mut_coherent (m : Mut) (s s' : Sprite) (hc : Coherent s)
    (h : apply_mut m s = .ok s') : Coherent s' := by
  cases m with
  | mSkin a =>
    cases a <;> simp only [apply_mut, set_skin] at h
    case pynone => exact absurd h (fun hx => Except.noConfusion hx)
    case path p =>
      split at h
      · exact (Except.ok.inj h) ▸ hc
      · exact (Except.ok.inj h) ▸ coherent_of_cache_none rfl
    case rgb r g b =>
      split at h
      · exact (Except.ok.inj h) ▸ hc
      · exact (Except.ok.inj h) ▸ coherent_of_cache_none rfl
    case pil c =>
      split at h
      · exact (Except.ok.inj h) ▸ hc
      · exact (Except.ok.inj h) ▸ coherent_of_cache_none rfl
    case surface i c =>
      split at h
      · exact (Except.ok.inj h) ▸ hc
      · exact (Except.ok.inj h) ▸ coherent_of_cache_none rfl
  | mCrop b =>
    simp only [apply_mut, set_crop] at h
    split at h
    · exact (Except.ok.inj h) ▸ coherent_of_cache_none rfl
    · exact (Except.ok.inj h) ▸ hc
  | mFlip hf vf =>
    simp only [apply_mut] at h
    have hs' : s' = set_flip hf vf s := (Except.ok.inj h).symm
    subst hs'
    rcases set_flip_cases hf vf s with heq | hnone
    · rw [heq]
      exact hc
    · exact coherent_of_cache_none hnone
  | mAngle a =>
    simp only [apply_mut, set_angle] at h
    split at h
    · exact (Except.ok.inj h) ▸ coherent_of_cache_none rfl
    · exact (Except.ok.inj h) ▸ hc
  | mColor c =>
    simp only [apply_mut, set_color] at h
    split at h
    · exact (Except.ok.inj h) ▸ coherent_of_cache_none rfl
    · exact (Except.ok.inj h) ▸ hc
  | mRect x y w hh =>
    simp only [apply_mut] at h
    exact set_rect_coherent x y w hh s s' hc h

lemma apply_muts_coherent (ms : List Mut) (s s' : Sprite) (hc : Coherent s)
    (h : apply_muts ms s = .ok s') : Coherent s' := by
  induction ms generalizing s with
  | nil =>
    simp only [apply_muts] at h
    exact (Except.ok.inj h) ▸ hc
  | cons m ms ih =>
    simp only [apply_muts] at h
    cases hm : apply_mut m s with
    | error e => rw [hm] at h; exact absurd h (fun hx => Except.noConfusion hx)
    | ok s1 =>
      rw [hm] at h
      exact ih s1 (apply_mut_coherent m s s1 hc hm) h

/-- Lemma: `draw` returns exactly the rendering of the current state, resolves the
skin without changing anything `renderValue` reads, and touches neither the
cache nor the dirty flag. -/
lemma draw_spec (s : Sprite) (img : Rendered) (s1 : Sprite)
    (h : draw s = .ok (img, s1)) :
    renderValue s = some img ∧ renderValue s1 = some img ∧
    s1.cache = s.cache ∧ s1.dirty = s.dirty := by
  cases horig : s.image_orig with
  | some o =>
    have hd : draw s = .ok (rendered_of s o, s) := by
      unfold draw
      rw [horig]
    rw [hd] at h
    obtain ⟨h1, h2⟩ := Prod.mk.injEq .. ▸ Except.ok.inj h
    subst h1 h2
    unfold renderValue resolved_orig
    rw [horig]
    exact ⟨rfl, rfl, rfl, rfl⟩
  | none =>
    cases hpath : s.path with
    | none =>
      have hd : draw s = .error .missingPath := by
        unfold draw
        simp only [horig, hpath]
      rw [hd] at h
      exact absurd h (fun hx => Except.noConfusion hx)
    | some p =>
      by_cases hp : p = ""
      · have hd : draw s = .error .missingPath := by
          unfold draw
          simp only [horig, hpath]
          rw [if_pos hp]
        rw [hd] at h
        exact absurd h (fun hx => Except.noConfusion hx)
      · have hd : draw s = .ok
            (rendered_of { s with image_orig := some (.loaded p) } (.loaded p),
             { s with image_orig := some (.loaded p) }) := by
          unfold draw
          simp only [horig, hpath]
          rw [if_neg hp]
        rw [hd] at h
        obtain ⟨h1, h2⟩ := Prod.mk.injEq .. ▸ Except.ok.inj h
        subst h1 h2
        refine ⟨?_, ?_, rfl, rfl⟩
        · unfold renderValue resolved_orig
          rw [horig, hpath]
          dsimp only
          rw [if_neg hp]
          rfl
        · unfold renderValue resolved_orig
          rfl

/-- The `image` property returns the rendering of the current state (using
the cache only when it is coherent), stores it, and leaves the dirty flag
alone. -/
lemma sprite_image_spec (s : Sprite) (img : Rendered) (s' : Sprite)
    (hc : Coherent s) (h : sprite_image s = .ok (img, s')) :
    renderValue s = some img ∧ s'.cache = some img ∧ s'.dirty = s.dirty := by
  unfold sprite_image at h
  cases hcache : s.cache with
  | some c =>
    rw [hcache] at h
    obtain ⟨h1, h2⟩ := Prod.mk.injEq .. ▸ Except.ok.inj h
    subst h1 h2
    exact ⟨hc _ hcache, hcache, rfl⟩
  | none =>
    rw [hcache] at h
    cases hdraw : draw s with
    | error e => rw [hdraw] at h; exact absurd h (fun hx => Except.noConfusion hx)
    | ok p =>
      obtain ⟨i, s1⟩ := p
      rw [hdraw] at h
      obtain ⟨hrv, hrv1, hcch, hdrt⟩ := draw_spec s i s1 hdraw
      obtain ⟨h1, h2⟩ := Prod.mk.injEq .. ▸ Except.ok.inj h
      subst h1 h2
      exact ⟨hrv, rfl, hdrt⟩

/-- Embedding of `BaseSprite.show` for a sprite without sub-sprites (the preview sprite in
`Game.__init__` has none). -/
def sprite_show (s : Sprite) : Sprite :=
  if s.visible = 0 then { s with visible := 1 } else s

/-- The `CAM_EVENT` branch of `Game.update` in
`src/cam/use_update_dirty_on_event.py`:
`self.sprites.get_sprite(0).set_skin(event.result)`, then `show()`, then the
capture counter is incremented.  A task-failure event has `event.result is
None`. -/
def game_handle_cam_event (result : SkinArg) (s : Sprite) (capture_counter : ℕ) :
    Except SpriteError (Sprite × ℕ) :=
  match set_skin result s with
  | .error err => .error err
  | .ok s1 => .ok (sprite_show s1, capture_counter + 1)

/-- C4: the consumer's handling of a camera event whose payload is a task
failure (`event.result is None`, `event.exception` set) raises out of
`Game.update`: `set_skin(None)` falls through the `isinstance` checks and
fails the `assert isinstance(skin, (PIL.Image.Image, pygame.Surface))`, so a
single failed capture crashes the render loop instead of being treated as
"no new frame this cycle". -/
theorem c4_failure_event_crashes (s : Sprite) (counter : ℕ) :
    game_handle_cam_event SkinArg.pynone s counter = .error SpriteError.invalidSkin := rfl

/-- A concrete sprite state: fresh preview sprite after a color skin was
set (dirty, cache dropped). -/
def sprite0 : Sprite :=
  { path := none, image_orig := some (.rgb 10 20 30), crop := false, hflip := false,
    vflip := false, angle := 0, colorize := true, color := none,
    rect_x := 0, rect_y := 0, rect_w := 10, rect_h := 10, dirty := 1, visible := 1,
    cache := none }

/-- C2 counterexample: rendering a dirty node via the `image` property does
not clear the dirty flag — after rendering `sprite0` the cache is filled but
`dirty` is still 1, refuting "clears the dirty flag, ... and the node is no
longer dirty" (the flag is only reset later by `LayeredDirty.draw`). -/
theorem c2_render_cache_counterexample :
    sprite_image sprite0 =
      .ok (Rendered.fill 10 20 30 10 10,
        { sprite0 with cache := some (Rendered.fill 10 20 30 10 10) }) ∧
    ({ sprite0 with cache := some (Rendered.fill 10 20 30 10 10) } : Sprite).dirty ≠ 0 :=
  ⟨rfl, by decide⟩

/-- C2 (amended): starting from a cache-coherent node, after any successful
sequence of mutators followed by `render()` (the `image` property), the
returned image is exactly the rendering of the node's current skin,
transform flags and rectangle size — never a stale combination — and it is
stored as the new cache; the dirty flag, however, is left unchanged (it is
cleared by the compositor's draw, not by `render()`). -/
theorem c2_render_cache (s s' s'' : Sprite) (muts : List Mut) (img : Rendered)
    (hc : Coherent s) (hm : apply_muts muts s = .ok s')
    (hi : sprite_image s' = .ok (img, s'')) :
    renderValue s' = some img ∧ s''.cache = some img ∧ s''.dirty = s'.dirty := by
  have hc' : Coherent s' := apply_muts_coherent muts s s' hc hm
  exact sprite_image_spec s' img s'' hc' hi

/-- The sprite `sprite0` after `set_angle(90)`. -/
def sprite0_rotated : Sprite := { sprite0 with angle := 90, dirty := 1, cache := none }

/-- Witness for C2: mutate `sprite0` with `set_angle(90)` and render. -/
theorem c2_render_cache_witness :
    renderValue sprite0_rotated = some (Rendered.fill 10 20 30 10 10) ∧
    ({ sprite0_rotated with cache := some (Rendered.fill 10 20 30 10 10) } : Sprite).cache =
      some (Rendered.fill 10 20 30 10 10) ∧
    ({ sprite0_rotated with cache := some (Rendered.fill 10 20 30 10 10) } : Sprite).dirty =
      sprite0_rotated.dirty :=
  c2_render_cache sprite0 sprite0_rotated
    { sprite0_rotated with cache := some (Rendered.fill 10 20 30 10 10) }
    [Mut.mAngle 90] (Rendered.fill 10 20 30 10 10)
    (fun c hcc => Option.noConfusion hcc) rfl rfl

/-- Value equality of a skin argument with a stored skin, following the
spec's words: two pygame surfaces are equal as values when their pixel
contents agree, regardless of object identity. -/
def surface_value_eq : SkinArg → Option StoredSkin → Bool
  | .surface _ c, some (.surface _ c') => c == c'
  | _, _ => false

/-- A sprite whose skin is the pygame surface with identity 0 and content
42, clean and with a valid cache. -/
def sprite_surface0 : Sprite :=
  { path := none, image_orig := some (.surface 0 42), crop := false, hflip := false,
    vflip := false, angle := 0, colorize := true, color := none,
    rect_x := 0, rect_y := 0, rect_w := 10, rect_h := 10, dirty := 0, visible := 1,
    cache := some (Rendered.transformed (.surface 0 42) 10 10 false false 0 false none) }

/-- C5 counterexample: `set_skin` with a pygame surface that is by-value
equal to the current skin (same pixel content 42) but a distinct object
(identity 1 instead of 0) is not a no-op: pygame surfaces have no `__eq__`,
so `skin != self._image_orig` compares identity, and the call marks the
sprite dirty and drops the cache — refuting "compared by value equality, not
identity". -/
theorem c5_mutators_noop_counterexample :
    surface_value_eq (SkinArg.surface 1 42) sprite_surface0.image_orig = true ∧
    sprite_surface0.dirty = 0 ∧
    sprite_surface0.cache ≠ none ∧
    (set_skin (SkinArg.surface 1 42) sprite_surface0).map Sprite.dirty = .ok 1 ∧
    (set_skin (SkinArg.surface 1 42) sprite_surface0).map Sprite.cache = .ok none := by
  refine ⟨rfl, rfl, ?_, rfl, rfl⟩
  decide

/-- C5 (amended): every mutator called with the node's current value as
Python's `!=` sees it — the same path string, an equal color tuple, a
value-equal PIL image, or the identical pygame surface object — is a no-op:
it returns the node unchanged, so it neither sets the dirty flag nor
invalidates the cache.  (For pygame surfaces the comparison is object
identity, not value equality.) -/
theorem c5_mutators_noop (s s1 s2 s3 s4 : Sprite) (p : String) (r g b pc sid sc : ℕ)
    (hw : 0 < s.rect_w) (hh : 0 < s.rect_h)
    (hp : s4.path = some p)
    (h1 : s1.image_orig = some (StoredSkin.rgb r g b))
    (h2 : s2.image_orig = some (StoredSkin.pil pc))
    (h3 : s3.image_orig = some (StoredSkin.surface sid sc)) :
    set_crop s.crop s = s ∧
    set_flip (some s.hflip) (some s.vflip) s = s ∧
    set_angle s.angle s = s ∧
    set_color s.color s = s ∧
    set_rect s.rect_x s.rect_y s.rect_w s.rect_h s = .ok s ∧
    set_skin (SkinArg.path p) s4 = .ok s4 ∧
    set_skin (SkinArg.rgb r g b) s1 = .ok s1 ∧
    set_skin (SkinArg.pil pc) s2 = .ok s2 ∧
    set_skin (SkinArg.surface sid sc) s3 = .ok s3 := by
  refine ⟨?_, ?_, ?_, ?_, ?_, ?_, ?_, ?_, ?_⟩
  · unfold set_crop
    rw [if_neg (fun hx => hx rfl)]
  · simp only [set_flip]
    have hhf : ¬ (s.hflip ≠ s.hflip) := fun hx => hx rfl
    rw [if_neg hhf]
    rw [if_neg (fun hx => hx rfl)]
  · unfold set_angle
    rw [if_neg (fun hx => hx rfl)]
  · unfold set_color
    rw [if_neg (fun hx => hx rfl)]
  · unfold set_rect
    rw [if_neg (not_le.mpr hw), if_neg (not_le.mpr hh)]
    dsimp only
    have hpos : ¬ (((s.rect_x, s.rect_y) : ℤ × ℤ) ≠ (s.rect_x, s.rect_y)) :=
      fun hx => hx rfl
    rw [if_neg hpos]
    rw [if_neg (fun hx => hx rfl)]
  · simp only [set_skin]
    rw [if_pos hp]
  · simp [set_skin, skin_eq_py, h1]
  · simp [set_skin, skin_eq_py, h2]
  · simp [set_skin, skin_eq_py, h3]

/-- A sprite whose skin is a path string. -/
def sprite_path0 : Sprite :=
  { sprite0 with path := some "img.png", image_orig := none }

/-- A sprite whose skin is a PIL image with content 7. -/
def sprite_pil0 : Sprite :=
  { sprite0 with image_orig := some (.pil 7) }

/-- Witness for C5 at concrete sprites for each skin kind. -/
theorem c5_mutators_noop_witness :
    set_crop sprite0.crop sprite0 = sprite0 ∧
    set_flip (some sprite0.hflip) (some sprite0.vflip) sprite0 = sprite0 ∧
    set_angle sprite0.angle sprite0 = sprite0 ∧
    set_color sprite0.color sprite0 = sprite0 ∧
    set_rect sprite0.rect_x sprite0.rect_y sprite0.rect_w sprite0.rect_h sprite0 = .ok sprite0 ∧
    set_skin (SkinArg.path "img.png") sprite_path0 = .ok sprite_path0 ∧
    set_skin (SkinArg.rgb 10 20 30) sprite0 = .ok sprite0 ∧
    set_skin (SkinArg.pil 7) sprite_pil0 = .ok sprite_pil0 ∧
    set_skin (SkinArg.surface 0 42) sprite_surface0 = .ok sprite_surface0 :=
  c5_mutators_noop sprite0 sprite0 sprite_pil0 sprite_surface0 sprite_path0
    "img.png" 10 20 30 7 0 42 (by decide) (by decide) rfl rfl rfl rfl

/-- C6: `set_rect` fails with the invalid-dimensions assertion when
`w ≤ 0` or `h ≤ 0`; a position-only change (size unchanged) sets the dirty
flag but keeps the cached image; a size change sets the dirty flag and
drops the cache; in each case every other field is unchanged. -/
theorem c6_set_rect (s1 s2 s3 : Sprite) (x1 y1 w1 h1 x2 y2 w2 h2 x3 y3 w3 h3 : ℤ)
    (hbad : w1 ≤ 0 ∨ h1 ≤ 0)
    (hw2 : 0 < w2) (hh2 : 0 < h2)
    (hpos2 : (s2.rect_x, s2.rect_y) ≠ (x2, y2))
    (hsize2 : (s2.rect_w, s2.rect_h) = (w2, h2))
    (hw3 : 0 < w3) (hh3 : 0 < h3)
    (hsize3 : (s3.rect_w, s3.rect_h) ≠ (w3, h3)) :
    set_rect x1 y1 w1 h1 s1 = .error SpriteError.invalidDimensions ∧
    set_rect x2 y2 w2 h2 s2 = .ok { s2 with rect_x := x2, rect_y := y2, dirty := 1 } ∧
    set_rect x3 y3 w3 h3 s3 =
      .ok { s3 with rect_x := x3, rect_y := y3, rect_w := w3, rect_h := h3, dirty := 1, cache := none } := by
  refine ⟨?_, ?_, ?_⟩
  · unfold set_rect
    by_cases hw1 : w1 ≤ 0
    · rw [if_pos hw1]
    · rw [if_neg hw1, if_pos (hbad.resolve_left hw1)]
  · unfold set_rect
    rw [if_neg (not_le.mpr hw2), if_neg (not_le.mpr hh2)]
    dsimp only
    rw [if_pos hpos2, if_neg (fun hx => hx hsize2)]
    rfl
  · unfold set_rect
    rw [if_neg (not_le.mpr hw3), if_neg (not_le.mpr hh3)]
    dsimp only
    by_cases hpos3 : (s3.rect_x, s3.rect_y) ≠ (x3, y3)
    · rw [if_pos hpos3]
      dsimp only [set_dirty]
      rw [if_pos hsize3]
      rfl
    · rw [if_neg hpos3, if_pos hsize3]
      have hxy : (s3.rect_x, s3.rect_y) = (x3, y3) := not_not.mp hpos3
      obtain ⟨hx, hy⟩ := Prod.mk.injEq .. ▸ hxy
      rw [← hx, ← hy]
      rfl

/-- Witness for C6 at `sprite0` (rect (0,0) 10×10): invalid width 0, a
position-only move to (5,5), and a resize to 20×20. -/
theorem c6_set_rect_witness :
    set_rect 1 1 0 10 sprite0 = .error SpriteError.invalidDimensions ∧
    set_rect 5 5 10 10 sprite0 = .ok { sprite0 with rect_x := 5, rect_y := 5, dirty := 1 } ∧
    set_rect 0 0 20 20 sprite0 =
      .ok { sprite0 with rect_x := 0, rect_y := 0, rect_w := 20, rect_h := 20, dirty := 1, cache := none } :=
  c6_set_rect sprite0 sprite0 sprite0 1 1 0 10 5 5 10 10 0 0 20 20
    (Or.inl (by decide)) (by decide) (by decide) (by decide) (by decide)
    (by decide) (by decide) (by decide)

/-! ## Visibility propagation (`BaseSprite.show` / `BaseSprite.hide`)

The sub-sprite tree: each node is a sprite with its `visible` flag and its
direct sub-sprites (`self._subsprites`, traversed by `get_sprites()`). -/

/-- A sprite together with its sub-sprites. -/
inductive SpriteTree where
  | node (visible : Bool) (children : List SpriteTree)

mutual

/-- Embedding of `BaseSprite.show`: if the sprite is not visible, make it visible and
recurse into the sub-sprites; otherwise do nothing at all. -/
def show_sprite : SpriteTree → SpriteTree
  | .node v cs => if v then .node v cs else .node true (show_sprites cs)

/-- The `show` call applied to each sub-sprite in order. -/
def show_sprites : List SpriteTree → List SpriteTree
  | [] => []
  | c :: cs => show_sprite c :: show_sprites cs

end

mutual

/-- Embedding of `BaseSprite.hide`: if the sprite is visible, hide it and recurse into
the sub-sprites; otherwise do nothing at all. -/
def hide_sprite : SpriteTree → SpriteTree
  | .node v cs => if v then .node false (hide_sprites cs) else .node v cs

/-- The `hide` call applied to each sub-sprite in order. -/
def hide_sprites : List SpriteTree → List SpriteTree
  | [] => []
  | c :: cs => hide_sprite c :: hide_sprites cs

end

mutual

/-- Every node of the tree is visible. -/
def all_visible : SpriteTree → Bool
  | .node v cs => v && all_visible_list cs

def all_visible_list : List SpriteTree → Bool
  | [] => true
  | c :: cs => all_visible c && all_visible_list cs

end

mutual

/-- Every node of the tree is hidden. -/
def all_hidden : SpriteTree → Bool
  | .node v cs => !v && all_hidden_list cs

def all_hidden_list : List SpriteTree → Bool
  | [] => true
  | c :: cs => all_hidden c && all_hidden_list cs

end

mutual

theorem show_all_hidden (t : SpriteTree) (h : all_hidden t = true) :
    all_visible (show_sprite t) = true := by
  cases t with
  | node v cs =>
    simp only [all_hidden, Bool.and_eq_true, Bool.not_eq_true'] at h
    obtain ⟨hv, hcs⟩ := h
    subst hv
    simp only [show_sprite, if_neg (Bool.false_ne_true), all_visible, Bool.and_eq_true]
    exact ⟨trivial, show_all_hidden_list cs hcs⟩

theorem show_all_hidden_list (ts : List SpriteTree) (h : all_hidden_list ts = true) :
    all_visible_list (show_sprites ts) = true := by
  cases ts with
  | nil => rfl
  | cons c cs =>
    simp only [all_hidden_list, Bool.and_eq_true] at h
    simp only [show_sprites, all_visible_list, Bool.and_eq_true]
    exact ⟨show_all_hidden c h.1, show_all_hidden_list cs h.2⟩

end

mutual

theorem hide_all_visible (t : SpriteTree) (h : all_visible t = true) :
    all_hidden (hide_sprite t) = true := by
  cases t with
  | node v cs =>
    simp only [all_visible, Bool.and_eq_true] at h
    obtain ⟨hv, hcs⟩ := h
    subst hv
    simp only [hide_sprite, if_pos rfl, all_hidden, Bool.not_false, Bool.true_and]
    exact hide_all_visible_list cs hcs

theorem hide_all_visible_list (ts : List SpriteTree) (h : all_visible_list ts = true) :
    all_hidden_list (hide_sprites ts) = true := by
  cases ts with
  | nil => rfl
  | cons c cs =>
    simp only [all_visible_list, Bool.and_eq_true] at h
    simp only [hide_sprites, all_hidden_list, Bool.and_eq_true]
    exact ⟨hide_all_visible c h.1, hide_all_visible_list cs h.2⟩

end

/-- Idempotence: `show` on a node that is already visible changes nothing (it does not
even recurse). -/
theorem show_of_visible (t : SpriteTree) (h : all_visible t = true) :
    show_sprite t = t := by
  cases t with
  | node v cs =>
    simp only [all_visible, Bool.and_eq_true] at h
    obtain ⟨hv, -⟩ := h
    subst hv
    simp [show_sprite]

/-- Idempotence: `hide` on a node that is already hidden changes nothing. -/
theorem hide_of_hidden (t : SpriteTree) (h : all_hidden t = true) :
    hide_sprite t = t := by
  cases t with
  | node v cs =>
    simp only [all_hidden, Bool.and_eq_true, Bool.not_eq_true'] at h
    obtain ⟨hv, -⟩ := h
    subst hv
    simp [hide_sprite]

/-- C7 counterexample: a visible root with a hidden sub-sprite.  `show` is a
no-op because the root is already visible, so the hidden descendant stays
hidden — refuting "after show(n) every descendant of n is visible,
regardless of the descendants' prior visibility states". -/
theorem c7_show_hide_counterexample :
    show_sprite (SpriteTree.node true [SpriteTree.node false []]) =
      SpriteTree.node true [SpriteTree.node false []] ∧
    all_visible (show_sprite (SpriteTree.node true [SpriteTree.node false []])) = false :=
  And.intro rfl rfl

/-- C7 (amended): `show`/`hide` recurse only from nodes that actually change
state, and stop at any node already in the target state.  Consequently
`show` on a fully hidden tree makes every node visible and `hide` on a fully
visible tree hides every node; idempotence holds as claimed: `show` on a
fully visible tree and `hide` on a fully hidden tree change nothing. -/
theorem c7_show_hide (t1 t2 t3 t4 : SpriteTree)
    (h1 : all_hidden t1 = true) (h2 : all_visible t2 = true)
    (h3 : all_visible t3 = true) (h4 : all_hidden t4 = true) :
    all_visible (show_sprite t1) = true ∧
    show_sprite t2 = t2 ∧
    all_hidden (hide_sprite t3) = true ∧
    hide_sprite t4 = t4 :=
  ⟨show_all_hidden t1 h1, show_of_visible t2 h2, hide_all_visible t3 h3,
   hide_of_hidden t4 h4⟩

/-- A fully hidden two-level tree. -/
def tree_hidden2 : SpriteTree := .node false [.node false []]

/-- A fully visible two-level tree. -/
def tree_visible2 : SpriteTree := .node true [.node true []]

/-- Witness for C7 on concrete two-level trees. -/
theorem c7_show_hide_witness :
    all_visible (show_sprite tree_hidden2) = true ∧
    show_sprite tree_visible2 = tree_visible2 ∧
    all_hidden (hide_sprite tree_visible2) = true ∧
    hide_sprite tree_hidden2 = tree_hidden2 :=
  c7_show_hide tree_hidden2 tree_visible2 tree_visible2 tree_hidden2 rfl rfl rfl rfl

end Cam
